import Mathlib

/-!
Verification of the transaction manager / retry classifier
(`practice/golang/pkg/dbx/tx.go`) and the friend-group migration
orchestrator with its version-sequencing allocator (`cmd` migration file,
`src/unnamed/part_005`) of the repository, as a shallow embedding in Lean.

Strings are modelled at the character level; all inputs exercised here are
ASCII, where Go byte indexing and Lean character indexing coincide.
Machine integers (Go `int`/`int64`, Redis counters) are modelled as `Int`;
none of the verified claims concerns wrap-around behaviour.
-/

/-- Model of a Go error value as observed by the code under verification:
an identity token (distinguishing distinct error values that render the
same message), an optional PostgreSQL SQLSTATE (what `errors.As` with
`*pgconn.PgError` plus `SQLState()` yields), an optional MySQL error
number (what `errors.As` with `*mysql.MySQLError` yields), and the
message returned by `Error()`. -/
structure GoErr where
  ident : Nat := 0
  pgCode : Option String := none
  myNum : Option Int := none
  msg : String
deriving DecidableEq

/-- Embedding of `equalFold`'s per-character comparison from tx.go
(lines 325-342): two characters match when their ASCII case-folds
(`c ||| 32`) agree; otherwise, when either is outside ASCII, the
`fmt.Sprintf("%c", ...)` fallback succeeds exactly when the characters
are identical. -/
def charEqFold (ca cb : Char) : Bool :=
  if (ca.toNat ||| 32) == (cb.toNat ||| 32) then true
  else if 128 ≤ ca.toNat || 128 ≤ cb.toNat then ca == cb
  else false

/-- Embedding of `equalFold` from tx.go: length check plus pointwise
case-folded comparison. -/
def equalFold : List Char → List Char → Bool
  | [], [] => true
  | a :: as, b :: bs => charEqFold a b && equalFold as bs
  | _, _ => false

/-- Embedding of `indexFold` from tx.go (lines 311-323): naive scan for
the first position whose window case-fold-matches `sub`; `none` models
the `-1` result. An empty `sub` matches at position 0. -/
def indexFoldAux (sub : List Char) : List Char → Option Nat
  | [] => if sub.length == 0 then some 0 else none
  | c :: t =>
    if (c :: t).length < sub.length then none
    else if equalFold ((c :: t).take sub.length) sub then some 0
    else (indexFoldAux sub t).map (· + 1)

/-- Result of `indexFold` as an integer, `-1` for no match, as in tx.go. -/
def indexFold (s sub : List Char) : Int :=
  match indexFoldAux sub s with
  | some i => (i : Int)
  | none => -1

/-- Embedding of `containsFold` from tx.go (lines 306-309). -/
def containsFold (s sub : List Char) : Bool :=
  decide (sub.length ≤ s.length) && decide (0 ≤ indexFold s sub)

/-- Embedding of `containsAnyFold` from tx.go (lines 294-304): empty
substrings are skipped, any remaining case-insensitive hit wins. -/
def containsAnyFold (s : List Char) (subs : List (List Char)) : Bool :=
  subs.any fun sub => if sub.length == 0 then false else containsFold s sub

/-- Keyword list of the text fallback in `isRetryableTxError`
(tx.go line 288). -/
def retryKeywords : List (List Char) :=
  ["deadlock".toList, "serialization".toList, "timeout".toList]

/-- Embedding of `isRetryableTxError` from tx.go (lines 267-292): a `nil`
error is not retryable; PostgreSQL SQLSTATE 40001/40P01 and MySQL error
numbers 1213/1205 are retryable; otherwise the case-insensitive text
fallback over `deadlock`, `serialization`, `timeout` decides. -/
def isRetryableTxError : Option GoErr → Bool
  | none => false
  | some e =>
    if (match e.pgCode with
        | some code => code == "40001" || code == "40P01"
        | none => false) then true
    else if (match e.myNum with
        | some n => n == 1213 || n == 1205
        | none => false) then true
    else containsAnyFold e.msg.toList retryKeywords

/-- Spec-side rendering (for comparison only) of claim C4 as written:
structured retryable codes, and the text fallback consulted only when the
error carries no structured code at all. -/
def isRetryableClaimC4 (e : GoErr) : Bool :=
  (match e.pgCode with
   | some code => code == "40001" || code == "40P01"
   | none => false) ||
  (match e.myNum with
   | some n => n == 1213 || n == 1205
   | none => false) ||
  (if e.pgCode.isNone && e.myNum.isNone then
    containsAnyFold e.msg.toList retryKeywords
   else false)

/-- Spec-side rendering of the amended C4: the text fallback is consulted
whenever the structured checks did not already classify the error as
retryable, even when a structured (non-retryable) code is present. -/
def isRetryableAmendedC4 (e : GoErr) : Bool :=
  (match e.pgCode with
   | some code => code == "40001" || code == "40P01"
   | none => false) ||
  (match e.myNum with
   | some n => n == 1213 || n == 1205
   | none => false) ||
  containsAnyFold e.msg.toList retryKeywords

/-- Sentinel message used by the migration's dry-run rollback
(part_005 line 86). -/
def errDryRunMsg : String := "dry-run rollback"

/-- Embedding of the error handling at the tail of the migration's `run`
(part_005 lines 268-275): a `nil` transaction result is success, and a
failing result whose `Error()` string is exactly `dry-run rollback` is
translated to success; everything else is propagated. -/
def handleRunResult : Option GoErr → Option GoErr
  | none => none
  | some e => if e.msg == errDryRunMsg then none else some e

/-- Embedding of the version-range reservation pattern of the migration
(part_005 lines 127-137, 156-163 and 238-244): when `0 < count`, one
`IncrBy key count` request is issued against the external counter
(modelled as `counter + count`, returning the new total, per the atomic
counter interface), and `start` is computed as `end - count + 1`; when
the count guard fails, no request is issued.  Returns the new counter
value, the reserved start (if any), and the log of increment requests
issued as `(key, amount)` pairs. -/
def reserveRange (key : String) (counter : Int) (count : Int) :
    Int × Option Int × List (String × Int) :=
  if 0 < count then
    let endv := counter + count
    (endv, some (endv - count + 1), [(key, count)])
  else (counter, none, [])

/-- Row of the `friend_group` table as touched by the migration. -/
structure FriendGroup where
  id : Int
  uid : Int
  name : String
  is_default : Int
  is_deleted : Option Int
  version : Int
deriving DecidableEq

/-- Row of the `friend_group_member` table. -/
structure Member where
  uid : Int
  friend_uid : Int
  group_id : Int
  is_deleted : Option Int
deriving DecidableEq

/-- Row of the `friend` table. -/
structure Friend where
  id : Int
  uid : Int
  to_uid : Int
  friend_group_id : Option Int
  is_deleted : Option Int
  version : Int
deriving DecidableEq

/-- SQL `COALESCE(x, 0)` over a nullable integer column. -/
def coalesce0 : Option Int → Int
  | some x => x
  | none => 0

/-- Embedding of the `tmp_defaults` temporary table (part_005 lines
187-197): per owner `uid`, the minimal id among its non-deleted default
groups, or `none` when the owner has no such group (and hence no
`tmp_defaults` row). -/
def defaultGroupId (fgs : List FriendGroup) (uid : Int) : Option Int :=
  ((fgs.filter fun fg =>
      fg.uid == uid && fg.is_default == 1 && coalesce0 fg.is_deleted == 0).map
    (·.id)).min?

/-- Embedding of the `tmp_member` temporary table (part_005 lines
204-216): per `(uid, friend_uid)` pair, the minimal group id among its
non-deleted memberships in non-deleted groups. -/
def targetGroupId (ms : List Member) (fgs : List FriendGroup)
    (uid fid : Int) : Option Int :=
  ((ms.filter fun m =>
      m.uid == uid && m.friend_uid == fid && coalesce0 m.is_deleted == 0 &&
      (fgs.any fun fg => fg.id == m.group_id && coalesce0 fg.is_deleted == 0)).map
    (·.group_id)).min?

/-- Target group of a friend row per the migration's
`COALESCE(m.target_group_id, d.default_group_id)` with an inner join on
`tmp_defaults`: `none` exactly when the owner has no `tmp_defaults` row,
in which case the join drops the row. -/
def newGroupId (fgs : List FriendGroup) (ms : List Member) (f : Friend) :
    Option Int :=
  match defaultGroupId fgs f.uid with
  | none => none
  | some d => some ((targetGroupId ms fgs f.uid f.to_uid).getD d)

/-- Candidate predicate of the count query and of the update subquery
(part_005 lines 220-229 and 250-258): a non-deleted friend row, joined to
its owner's `tmp_defaults` row, whose current group (`COALESCE(_, 0)`)
differs from its target group. -/
def isUpdateCandidate (fgs : List FriendGroup) (ms : List Member)
    (f : Friend) : Bool :=
  match newGroupId fgs ms f with
  | none => false
  | some g => coalesce0 f.is_deleted == 0 && coalesce0 f.friend_group_id != g

/-- Embedding of the `toUpdate` count (part_005 lines 219-229). -/
def toUpdateCount (fgs : List FriendGroup) (ms : List Member)
    (friends : List Friend) : Nat :=
  (friends.filter (isUpdateCandidate fgs ms)).length

/-- Candidate friend rows in the update subquery's
`ROW_NUMBER() OVER (ORDER BY f.id)` order (part_005 lines 250-258). -/
def rankedCandidates (fgs : List FriendGroup) (ms : List Member)
    (friends : List Friend) : List Friend :=
  List.insertionSort (fun a b => a.id ≤ b.id)
    (friends.filter (isUpdateCandidate fgs ms))

/-- The per-row updates performed by the friend update statement
(part_005 lines 248-264): for the candidate of 1-based rank `rn`, a
triple of its id, its new group id, and version `start + rn - 1`. -/
def friendUpdates (fgs : List FriendGroup) (ms : List Member)
    (friends : List Friend) (start : Int) : List (Int × Int × Int) :=
  (rankedCandidates fgs ms friends).enum.map fun p =>
    (p.2.id, (newGroupId fgs ms p.2).getD 0, start + ((p.1 : Int) + 1) - 1)

/-- Snapshot of the tables reachable by the migration plus the
auto-increment state for `friend_group` inserts. -/
structure MigDB where
  users : List Int
  friendGroups : List FriendGroup
  friends : List Friend
  members : List Member
  nextFgId : Int
deriving DecidableEq

/-- External counter state: one Redis integer per sequence key. -/
structure Counters where
  friendGroupSeq : Int
  friendSeq : Int
deriving DecidableEq

/-- Ids of the pre-existing default-name groups captured in the
`tmp_fg_existing` snapshot (part_005 lines 97-112). -/
def existingDefaultIds (db : MigDB) (defaultName : String) : List Int :=
  (db.friendGroups.filter fun fg => fg.name == defaultName).map (·.id)

/-- Uids of users with no default-name group row, per the
`LEFT JOIN ... WHERE fg.id IS NULL` count (part_005 lines 114-123). -/
def missingUids (db : MigDB) (defaultName : String) : List Int :=
  db.users.filter fun u =>
    !(db.friendGroups.any fun fg => fg.uid == u && fg.name == defaultName)

/-- Embedding of the missing-defaults insert (part_005 lines 139-152):
one new default group per missing uid, ranked by
`ROW_NUMBER() OVER (ORDER BY u.uid)`, with version `start + rn - 1`;
ids come from the table's auto-increment state. -/
def insertMissingDefaults (db : MigDB) (defaultName : String)
    (start : Int) : MigDB :=
  let uids := List.insertionSort (fun a b : Int => a ≤ b)
    (missingUids db defaultName)
  let newRows := uids.enum.map fun p =>
    { id := db.nextFgId + (p.1 : Int), uid := p.2, name := defaultName,
      is_default := 1, is_deleted := some 0,
      version := start + ((p.1 : Int) + 1) - 1 : FriendGroup }
  { db with friendGroups := db.friendGroups ++ newRows,
            nextFgId := db.nextFgId + (uids.length : Int) }

/-- Embedding of the existing-defaults update (part_005 lines 166-179):
rows of the `tmp_fg_existing` snapshot, ranked by
`ROW_NUMBER() OVER (ORDER BY e.id)`, get `is_default = 1`,
`is_deleted = 0` and version `start + rn - 1`. -/
def updateExistingDefaults (db : MigDB) (ids : List Int) (start : Int) :
    MigDB :=
  let ranked := List.insertionSort (fun a b : Int => a ≤ b) ids
  { db with friendGroups := db.friendGroups.map fun fg =>
      match ranked.enum.find? (fun p => p.2 == fg.id) with
      | some p => { fg with is_default := 1, is_deleted := some 0,
                            version := start + ((p.1 : Int) + 1) - 1 }
      | none => fg }

/-- Embedding of the friend update statement's effect on the `friend`
table (part_005 lines 248-264). -/
def applyFriendUpdates (db : MigDB) (start : Int) : MigDB :=
  let ups := friendUpdates db.friendGroups db.members db.friends start
  { db with friends := db.friends.map fun f =>
      match ups.find? (fun u => u.1 == f.id) with
      | some u => { f with friend_group_id := some u.2.1, version := u.2.2 }
      | none => f }

/-- Embedding of the migration transaction body (part_005 lines 87-267),
sequenced exactly as the source: snapshot counts, guarded reservation and
insert of missing defaults, guarded reservation and update of existing
defaults, candidate count, dry-run sentinel, guarded reservation and
friend update.  Returns the body's error result, the table state as left
inside the transaction, the counter state, and the log of counter
increment requests issued. -/
def runBody (defaultName : String) (dryRun : Bool) (db0 : MigDB)
    (cs : Counters) : Option GoErr × MigDB × Counters × List (String × Int) :=
  let existIds := existingDefaultIds db0 defaultName
  let existCnt := existIds.length
  let missCnt := (missingUids db0 defaultName).length
  let (db1, cs1, log1) :=
    if !dryRun then
      match reserveRange "friendGroup" cs.friendGroupSeq (missCnt : Int) with
      | (c1, some startMissing, incs) =>
        (insertMissingDefaults db0 defaultName startMissing,
         { cs with friendGroupSeq := c1 }, incs)
      | (_, none, _) => (db0, cs, [])
    else (db0, cs, [])
  let (db2, cs2, log2) :=
    if !dryRun then
      match reserveRange "friendGroup" cs1.friendGroupSeq (existCnt : Int) with
      | (c2, some startExist, incs) =>
        (updateExistingDefaults db1 existIds startExist,
         { cs1 with friendGroupSeq := c2 }, log1 ++ incs)
      | (_, none, _) => (db1, cs1, log1)
    else (db1, cs1, log1)
  let toUpd := toUpdateCount db2.friendGroups db2.members db2.friends
  if dryRun then
    (some { msg := errDryRunMsg }, db2, cs2, log2)
  else
    match reserveRange "friend" cs2.friendSeq (toUpd : Int) with
    | (c3, some startFriend, incs) =>
      (none, applyFriendUpdates db2 startFriend,
       { cs2 with friendSeq := c3 }, log2 ++ incs)
    | (_, none, _) => (none, db2, cs2, log2)

/-- Embedding of the migration's `run` (part_005 lines 84-276): the body
runs inside `RunInTx`, whose rollback on a body error restores the table
state (while the external Redis counters are untouched by the rollback),
and the sentinel translation of `handleRunResult` is applied to the
transaction result. -/
def runMig (defaultName : String) (dryRun : Bool) (db : MigDB)
    (cs : Counters) : Option GoErr × MigDB × Counters × List (String × Int) :=
  match runBody defaultName dryRun db cs with
  | (none, dbQ, csQ, log) => (none, dbQ, csQ, log)
  | (some e, _, csQ, log) => (handleRunResult (some e), db, csQ, log)

/-- State of `TxManager` (tx.go lines 110-114), with durations in
nanoseconds. -/
structure TxManager where
  maxAttempts : Int
  initialBackoff : Int
deriving DecidableEq

/-- Embedding of `NewTxManager` (tx.go lines 116-118):
`MaxAttempts = 1`, `InitialBackoff = 50ms`. -/
def NewTxManager : TxManager :=
  { maxAttempts := 1, initialBackoff := 50 * 1000000 }

/-- Embedding of the retry loop in `TxManager.Run` (tx.go lines 163-182).
`out i` is the result of the `i`-th `runOnce` invocation (counting from
0); `canc i` models `ctx.Err() != nil` at the abort check after attempt
`i`; `cancS i` models the context firing during the backoff sleep after
attempt `i`, in which case `ctxE` (the model of `ctx.Err()`) is returned.
The fuel argument only bounds the recursion; `Run` supplies
`maxA.toNat`, which the guard `attempt + 1 < maxA` can never exhaust.
Returns the final error result and the number of `runOnce` invocations
performed. -/
def runLoop (out : Nat → Option GoErr) (canc cancS : Nat → Bool)
    (ctxE : GoErr) (maxA : Int) :
    Nat → Nat → Int → Option GoErr × Nat
  | fuel, attempt, backoff =>
    match out attempt with
    | none => (none, attempt + 1)
    | some e =>
      if maxA ≤ ((attempt : Int) + 1) ∨ isRetryableTxError (some e) = false ∨
          canc attempt = true then
        (some e, attempt + 1)
      else if cancS attempt = true then (some ctxE, attempt + 1)
      else
        match fuel with
        | 0 => (some e, attempt + 1)
        | fuelp + 1 =>
          runLoop out canc cancS ctxE maxA fuelp (attempt + 1) (backoff * 2)

/-- Embedding of `TxManager.Run` (tx.go lines 155-183): normalization of
`MaxAttempts` and `InitialBackoff`, then the retry loop starting at
attempt 0. -/
def TxManagerRun (m : TxManager) (out : Nat → Option GoErr)
    (canc cancS : Nat → Bool) (ctxE : GoErr) : Option GoErr × Nat :=
  let maxA := if m.maxAttempts ≤ 0 then 1 else m.maxAttempts
  let ib := if m.initialBackoff ≤ 0 then 50 * 1000000 else m.initialBackoff
  runLoop out canc cancS ctxE maxA maxA.toNat 0 ib

/-- An after-commit hook, with an id naming it in execution traces and a
flag saying whether invoking it panics. -/
structure Hook where
  id : Nat
  panics : Bool
deriving DecidableEq

/-- Raw invocation of a hook: a panicking hook raises, any other returns. -/
def invokeHook (h : Hook) : Except String Unit :=
  if h.panics then Except.error "panic" else Except.ok ()

/-- Embedding of `safeCall` (tx.go lines 241-244): the deferred
`recover()` swallows a panic, so the call always returns. -/
def safeCall (h : Hook) : Unit :=
  match invokeHook h with
  | Except.ok u => u
  | Except.error _ => ()

/-- Embedding of the hook loop after a successful outermost commit
(tx.go lines 235-237): each registered hook is passed to `safeCall` in
order; the returned trace lists the ids of the hooks invoked. -/
def runAfterCommitHooks : List Hook → List Nat
  | [] => []
  | h :: t =>
    let u := safeCall h
    let _ := u
    h.id :: runAfterCommitHooks t

/-- Body actions relevant to hook registration: an `AfterCommit` call, or
a nested `Run` scope (with its `RequiresNew` flag) containing further
actions.  Nested `runOnce` calls pass the caller's context through
(tx.go lines 186-207), so every registration reaches the single
`txContext` of the outermost transaction. -/
inductive HAction where
  | reg : Hook → HAction
  | nested : Bool → List HAction → HAction

/-- Interpreter of a body over the shared `afterCommit` list of the
outermost `txContext`: `AfterCommit` appends (tx.go line 148), a nested
scope threads the same list through its own actions. -/
def execActs : List HAction → List Hook → List Hook
  | [], st => st
  | HAction.reg h :: rest, st => execActs rest (st ++ [h])
  | HAction.nested _ body :: rest, st => execActs rest (execActs body st)

/-- Chronological flattening of the registrations of a body, across all
nesting depths; spec-side description of the registration order. -/
def flattenRegs : List HAction → List Hook
  | [] => []
  | HAction.reg h :: rest => h :: flattenRegs rest
  | HAction.nested _ body :: rest => flattenRegs body ++ flattenRegs rest

/-- Embedding of the top-level path of `runOnce` (tx.go lines 209-239)
restricted to its hook behaviour: the body registers hooks (at any
nesting depth); on a body error the transaction rolls back and no hook
runs; on success the transaction commits and each registered hook is run
through `safeCall` in order.  Returns the overall result and the trace
of hook invocations. -/
def runOnceTopHooks (body : List HAction) (bodyErr : Option GoErr) :
    Option GoErr × List Nat :=
  let registered := execActs body []
  match bodyErr with
  | some e => (some e, [])
  | none => (none, runAfterCommitHooks registered)

/-- Store state as a list of applied writes, identified by integers. The
store's savepoint semantics (spec §6 external interface): a savepoint
captures the current state, `ROLLBACK TO SAVEPOINT` restores it without
touching writes made before the savepoint, `RELEASE SAVEPOINT` keeps the
state. -/
abbrev Writes := List Int

/-- Embedding of the `RequiresNew` nested path of `runOnce` (tx.go lines
194-207): create a savepoint, run the body on the same outer transaction;
on a body error roll back to the savepoint and return the error to the
caller; on success release the savepoint and keep the body's writes. -/
def runOnceRequiresNew (db : Writes)
    (body : Writes → Writes × Option GoErr) : Writes × Option GoErr :=
  let sp := db
  match body db with
  | (_, some e) => (sp, some e)
  | (dbQ, none) => (dbQ, none)

/-- Embedding of the top-level path of `runOnce` (tx.go lines 209-239)
restricted to its write behaviour: on a body error the transaction rolls
back and the pre-transaction state is kept; on success the body's final
state commits. -/
def runOnceTopLevel (db : Writes)
    (body : Writes → Writes × Option GoErr) : Writes × Option GoErr :=
  match body db with
  | (dbQ, none) => (dbQ, none)
  | (_, some e) => (db, some e)

/-- Scenario combining both paths: an outer transaction writes `w1`,
enters a `RequiresNew` nested scope whose body writes `wN` and fails
with `e`, observes the nested error, chooses to continue, writes `w2`,
and succeeds. -/
def nestedFailScenario (db0 w1 wN w2 : Writes) (e : GoErr) :
    Writes × Option GoErr :=
  runOnceTopLevel db0 fun d =>
    let d1 := d ++ w1
    let (d2, r) := runOnceRequiresNew d1 fun x => (x ++ wN, some e)
    match r with
    | some _ => (d2 ++ w2, none)
    | none => (d2 ++ w2, none)

/-- Total-order instance for the candidate ordering by `Friend.id`. -/
instance : IsTotal Friend (fun a b => a.id ≤ b.id) :=
  ⟨fun a b => Int.le_total a.id b.id⟩

/-- Transitivity instance for the candidate ordering by `Friend.id`. -/
instance : IsTrans Friend (fun a b => a.id ≤ b.id) :=
  ⟨fun _ _ _ h1 h2 => le_trans h1 h2⟩

/-- Concrete retryable error (PostgreSQL serialization failure). -/
def eRetryW : GoErr := { pgCode := some "40001", msg := "retry me" }

/-- Concrete outcome stream: every attempt fails with `eRetryW`. -/
def outW : Nat → Option GoErr := fun _ => some eRetryW

/-- Concrete cancellation signal that never fires. -/
def cfalseW : Nat → Bool := fun _ => false

/-- Concrete model of `ctx.Err()`. -/
def ctxEW : GoErr := { msg := "context canceled" }

/-- Concrete error carrying a structured, non-retryable PostgreSQL code
(57014, `query_canceled`) whose message contains the keyword
`timeout`. -/
def errStmtTimeout : GoErr :=
  { pgCode := some "57014", msg := "canceling statement due to statement timeout" }

/-- Concrete default group of owner 10 with id 1. -/
def fgW : FriendGroup :=
  { id := 1, uid := 10, name := "d", is_default := 1,
    is_deleted := some 0, version := 0 }

/-- Concrete friend row whose current group already equals its target. -/
def fW : Friend :=
  { id := 100, uid := 10, to_uid := 20, friend_group_id := some 1,
    is_deleted := some 0, version := 0 }

/-- Concrete friend row whose current group (NULL, i.e. 0) differs from
its target group 1. -/
def fW2 : Friend :=
  { id := 100, uid := 10, to_uid := 20, friend_group_id := none,
    is_deleted := none, version := 0 }

/-- Concrete empty database snapshot. -/
def dbW : MigDB :=
  { users := [], friendGroups := [], friends := [], members := [], nextFgId := 1 }

lemma enum_map_fst_comp {α β : Type _} (l : List α) (g : Nat → β) :
    l.enum.map (fun p => g p.1) = (List.range l.length).map g := by
  have h1 : (fun p : Nat × α => g p.1) = g ∘ Prod.fst := rfl
  rw [h1, ← List.map_map, List.enum_map_fst]

lemma enum_map_snd_comp {α β : Type _} (l : List α) (g : α → β) :
    l.enum.map (fun p => g p.2) = l.map g := by
  have h1 : (fun p : Nat × α => g p.2) = g ∘ Prod.snd := rfl
  rw [h1, ← List.map_map, List.enum_map_snd]

/-- Registrations thread through nested scopes in chronological order:
running a body against the shared hook list appends exactly its
flattened registrations. -/
lemma execActs_eq_append (acts : List HAction) (st : List Hook) :
    execActs acts st = st ++ flattenRegs acts := by
  induction acts, st using execActs.induct
  case case1 st => simp [execActs, flattenRegs]
  case case2 h rest st ih => simp [execActs, flattenRegs, ih]
  case case3 b body rest st ih1 ih2 =>
    rw [ih1] at ih2
    simp [execActs, flattenRegs, ih1, ih2]

/-- Every registered hook is invoked, in order, panicking or not. -/
lemma runAfterCommitHooks_eq_map (hs : List Hook) :
    runAfterCommitHooks hs = hs.map Hook.id := by
  induction hs with
  | nil => rfl
  | cons h t ih => simp [runAfterCommitHooks, ih]

/-- C1: a reservation of count `N ≥ 1` against a counter at `V` issues
exactly one increment-by-`N`, returns start `V + 1` (computed as
`end - N + 1` from the returned total `end = V + N`), and leaves the
counter at `V + N`; a reservation of count 0 issues no increment and
leaves the counter unchanged. -/
theorem reserveRange_spec (key : String) (V N : Int) :
    (1 ≤ N → reserveRange key V N = (V + N, some (V + 1), [(key, N)])) ∧
    (N = 0 → reserveRange key V N = (V, none, [])) := by
  constructor
  · intro h
    have h0 : (0 : Int) < N := by omega
    simp only [reserveRange, if_pos h0]
    refine Prod.ext rfl (Prod.ext ?_ rfl)
    simp only [Option.some.injEq]
    omega
  · intro h
    subst h
    simp [reserveRange]

/-- Witness for `reserveRange_spec` at `V = 10`, `N = 3` and `N = 0`. -/
theorem reserveRange_spec_witness :
    reserveRange "friend" 10 3 = (10 + 3, some (10 + 1), [("friend", 3)]) ∧
    reserveRange "friend" 10 0 = (10, none, []) :=
  ⟨(reserveRange_spec "friend" 10 3).1 (by decide),
   (reserveRange_spec "friend" 10 0).2 rfl⟩

/-- C3: a dry-run migration leaves the counters untouched (no increment
request is issued at all), persists no row change, and is reported to
the caller as success, the sentinel rollback not surfacing as an
error. -/
theorem dryRun_no_effect (dn : String) (db : MigDB) (cs : Counters) :
    runMig dn true db cs = (none, db, cs, []) := by
  simp [runMig, runBody, handleRunResult]

/-- C9: the migration's `run` returns `nil` exactly when the transaction
result is success or an error whose message is exactly
`dry-run rollback`; the sentinel is recognized by string comparison of
the message, not by error identity, so any error value carrying that
message is reported as success. -/
theorem run_nil_iff_sentinel :
    (∀ r : Option GoErr, handleRunResult r = none ↔
      r = none ∨ ∃ e : GoErr, r = some e ∧ e.msg = errDryRunMsg) ∧
    (∀ (dn : String) (dr : Bool) (db : MigDB) (cs : Counters),
      (runMig dn dr db cs).1 = handleRunResult (runBody dn dr db cs).1) := by
  constructor
  · intro r
    cases r with
    | none => simp [handleRunResult]
    | some e =>
      simp only [handleRunResult]
      by_cases h : e.msg = errDryRunMsg
      · simp [h]
      · simp [h]
  · intro dn dr db cs
    unfold runMig
    rcases hb : runBody dn dr db cs with ⟨r, dbQ, csQ, log⟩
    cases r <;> simp [handleRunResult]

/-- C4 counterexample: an error carrying the structured, non-retryable
PostgreSQL code 57014 whose message happens to contain `timeout` is
classified retryable by `isRetryableTxError`, because the text fallback
is consulted even though a structured code is present; the claim's
reading (`isRetryableClaimC4`, fallback only without a structured code)
classifies the same error fatal, so the two disagree. -/
theorem isRetryable_claim_counterexample :
    isRetryableTxError (some errStmtTimeout) = true ∧
    isRetryableClaimC4 errStmtTimeout = false ∧
    errStmtTimeout.pgCode.isSome = true := by
  refine ⟨by decide, by decide, by decide⟩

/-- C4 amended: `isRetryableTxError` returns true for the structured
serialization/deadlock/lock-wait codes (PostgreSQL 40001/40P01, MySQL
1213/1205), and otherwise exactly when the case-insensitive text
fallback over `deadlock`, `serialization`, `timeout` matches the message
— the fallback being consulted whenever the structured checks did not
already classify the error retryable, even when a structured
non-retryable code is present; a `nil` error is never retryable. -/
theorem isRetryable_characterization (e : GoErr) :
    isRetryableTxError (some e) = isRetryableAmendedC4 e ∧
    isRetryableTxError none = false := by
  refine ⟨?_, rfl⟩
  rcases e with ⟨i, pg, my, msg⟩
  simp only [isRetryableTxError, isRetryableAmendedC4]
  cases pg with
  | none =>
    cases my with
    | none => simp
    | some n =>
      by_cases h : (n == 1213 || n == 1205) = true
      · simp [h]
      · have h2 : (n == 1213 || n == 1205) = false := by simpa using h
        simp [h2]
  | some c =>
    by_cases hc : (c == "40001" || c == "40P01") = true
    · simp [hc]
    · have hc2 : (c == "40001" || c == "40P01") = false := by
        simpa using hc
      cases my with
      | none => simp [hc2]
      | some n =>
        by_cases h : (n == 1213 || n == 1205) = true
        · simp [hc2, h]
        · have h2 : (n == 1213 || n == 1205) = false := by simpa using h
          simp [hc2, h2]

/-- C6: hooks registered through `AfterCommit` at any nesting depth run
exactly once, after the outermost transaction commits, in chronological
registration order; they never run when the outer transaction rolls
back; and a panicking hook is recovered, affecting neither the remaining
hooks nor the committed result. -/
theorem afterCommit_hooks_spec (body : List HAction) (e : GoErr) :
    (runOnceTopHooks body none).1 = none ∧
    (runOnceTopHooks body none).2 = (flattenRegs body).map Hook.id ∧
    runOnceTopHooks body (some e) = (some e, []) ∧
    (∀ hs : List Hook, runAfterCommitHooks hs = hs.map Hook.id) := by
  refine ⟨rfl, ?_, rfl, runAfterCommitHooks_eq_map⟩
  simp [runOnceTopHooks, execActs_eq_append, runAfterCommitHooks_eq_map]

/-- C7: a failing `RequiresNew` nested scope rolls back exactly to its
savepoint — the outer writes made before it survive — and returns the
error to the caller; the outer transaction stays viable, and outer plus
sibling writes commit if the outer scope later succeeds; on nested body
success the savepoint is released and the nested writes are kept. -/
theorem requiresNew_savepoint_spec (db0 w1 wN w2 : Writes) (e : GoErr) :
    runOnceRequiresNew (db0 ++ w1) (fun x => (x ++ wN, some e)) =
      (db0 ++ w1, some e) ∧
    nestedFailScenario db0 w1 wN w2 e = (db0 ++ (w1 ++ w2), none) ∧
    runOnceRequiresNew (db0 ++ w1) (fun x => (x ++ wN, none)) =
      ((db0 ++ w1) ++ wN, none) := by
  refine ⟨rfl, ?_, rfl⟩
  simp [nestedFailScenario, runOnceTopLevel, runOnceRequiresNew]

/-- C5: when an attempt fails with a retryable error while attempts
remain and cancellation is observed neither at the check nor during the
backoff sleep, `Run` re-invokes the whole transaction as the next
attempt with the backoff doubled; when attempts are exhausted, the error
is not retryable, or cancellation is observed at the check, `Run` aborts
immediately propagating the attempt's error; when cancellation fires
during the backoff sleep, `Run` aborts propagating the context error. -/
theorem run_retry_loop_spec (out : Nat → Option GoErr)
    (canc cancS : Nat → Bool) (ctxE : GoErr) (maxA : Int)
    (fuel attempt : Nat) (backoff : Int) (e : GoErr)
    (hout : out attempt = some e) :
    ((isRetryableTxError (some e) = true ∧ ((attempt : Int) + 1) < maxA ∧
      canc attempt = false ∧ cancS attempt = false) →
      runLoop out canc cancS ctxE maxA (fuel + 1) attempt backoff =
        runLoop out canc cancS ctxE maxA fuel (attempt + 1) (backoff * 2)) ∧
    ((maxA ≤ ((attempt : Int) + 1) ∨ isRetryableTxError (some e) = false ∨
      canc attempt = true) →
      runLoop out canc cancS ctxE maxA fuel attempt backoff =
        (some e, attempt + 1)) ∧
    ((isRetryableTxError (some e) = true ∧ ((attempt : Int) + 1) < maxA ∧
      canc attempt = false ∧ cancS attempt = true) →
      runLoop out canc cancS ctxE maxA fuel attempt backoff =
        (some ctxE, attempt + 1)) := by
  refine ⟨fun ⟨hr, hm, hc, hs⟩ => ?_, fun h => ?_, fun ⟨hr, hm, hc, hs⟩ => ?_⟩
  · have hcond : ¬(maxA ≤ ((attempt : Int) + 1) ∨
        isRetryableTxError (some e) = false ∨ canc attempt = true) := by
      push_neg
      exact ⟨by omega, by simp [hr], by simp [hc]⟩
    conv_lhs => rw [runLoop]
    simp only [hout]
    rw [if_neg hcond, if_neg (by simp [hs])]
  · have hcond : maxA ≤ ((attempt : Int) + 1) ∨
        isRetryableTxError (some e) = false ∨ canc attempt = true := h
    conv_lhs => rw [runLoop]
    simp only [hout]
    rw [if_pos hcond]
  · have hcond : ¬(maxA ≤ ((attempt : Int) + 1) ∨
        isRetryableTxError (some e) = false ∨ canc attempt = true) := by
      push_neg
      exact ⟨by omega, by simp [hr], by simp [hc]⟩
    conv_lhs => rw [runLoop]
    simp only [hout]
    rw [if_neg hcond, if_pos hs]

/-- Witness for `run_retry_loop_spec`: with three allowed attempts, a
retryable failure at attempt 0 and no cancellation, the loop proceeds to
attempt 1 with the 50ns backoff doubled to 100ns. -/
theorem run_retry_loop_spec_witness :
    runLoop outW cfalseW cfalseW ctxEW 3 2 0 50 =
      runLoop outW cfalseW cfalseW ctxEW 3 1 1 100 := by
  have h := (run_retry_loop_spec outW cfalseW cfalseW ctxEW 3 1 0 50 eRetryW
    rfl).1 ⟨rfl, by decide, rfl, rfl⟩
  simpa using h

/-- C10: a manager built by `NewTxManager` has `MaxAttempts = 1`, `Run`
normalizes any `MaxAttempts ≤ 0` to 1, and in both cases `Run` invokes
`runOnce` exactly once, propagating its result with no retry even when
the failure is retryable. -/
theorem run_single_attempt (m : TxManager) (out : Nat → Option GoErr)
    (canc cancS : Nat → Bool) (ctxE : GoErr)
    (h : m.maxAttempts ≤ 0 ∨ m = NewTxManager) :
    NewTxManager.maxAttempts = 1 ∧
    TxManagerRun m out canc cancS ctxE = (out 0, 1) := by
  refine ⟨rfl, ?_⟩
  have hmax : (if m.maxAttempts ≤ 0 then 1 else m.maxAttempts) = 1 := by
    rcases h with h | h
    · simp [h]
    · subst h
      norm_num [NewTxManager]
  simp only [TxManagerRun]
  rw [hmax]
  rw [show Int.toNat 1 = 1 from rfl]
  cases hout : out 0 with
  | none =>
    conv_lhs => rw [runLoop]
    simp [hout]
  | some e =>
    have hcond : (1 : Int) ≤ (((0 : Nat) : Int) + 1) ∨
        isRetryableTxError (some e) = false ∨ canc 0 = true := by
      left
      simp
    conv_lhs => rw [runLoop]
    simp only [hout]
    rw [if_pos hcond]

/-- Witness for `run_single_attempt`: a manager with `MaxAttempts = 0`
facing a stream of retryable failures still runs exactly once and
returns the first failure. -/
theorem run_single_attempt_witness :
    TxManagerRun { maxAttempts := 0, initialBackoff := 50 } outW cfalseW
      cfalseW ctxEW = (outW 0, 1) :=
  (run_single_attempt { maxAttempts := 0, initialBackoff := 50 } outW
    cfalseW cfalseW ctxEW (Or.inl (by decide))).2

/-- C8: a friend row whose current group assignment (with NULL read as 0)
already equals its target group — the specific surviving group if
present, else the owner's default group — is not a candidate, does not
occur in the candidate set, does not contribute to the `toUpdate` count
that sizes the version reservation, and is absent from the rows written
by the update step. -/
theorem candidate_exclusion_spec (fgs : List FriendGroup) (ms : List Member)
    (friends : List Friend) (f : Friend) (d start : Int)
    (hd : defaultGroupId fgs f.uid = some d)
    (heq : coalesce0 f.friend_group_id =
      (targetGroupId ms fgs f.uid f.to_uid).getD d) :
    isUpdateCandidate fgs ms f = false ∧
    f ∉ friends.filter (isUpdateCandidate fgs ms) ∧
    toUpdateCount fgs ms (f :: friends) = toUpdateCount fgs ms friends ∧
    friendUpdates fgs ms (f :: friends) start =
      friendUpdates fgs ms friends start := by
  have hcand : isUpdateCandidate fgs ms f = false := by
    simp only [isUpdateCandidate, newGroupId, hd]
    simp [heq]
  refine ⟨hcand, ?_, ?_, ?_⟩
  · intro hmem
    rw [List.mem_filter] at hmem
    rw [hcand] at hmem
    exact absurd hmem.2 (by simp)
  · simp [toUpdateCount, List.filter_cons, hcand]
  · simp [friendUpdates, rankedCandidates, List.filter_cons, hcand]

/-- Witness for `candidate_exclusion_spec`: friend row `fW` already
assigned to the default group 1 of its owner is excluded and leaves the
count at zero. -/
theorem candidate_exclusion_spec_witness :
    isUpdateCandidate [fgW] [] fW = false ∧
    toUpdateCount [fgW] [] [fW] = toUpdateCount [fgW] [] [] := by
  have h := candidate_exclusion_spec [fgW] [] [] fW 1 0 (by decide) (by decide)
  exact ⟨h.1, h.2.2.1⟩

/-- C2: in a migration step with candidate set of size `N ≥ 1` and
reserved start, every candidate receives version `start + rank - 1`
under the ascending ordering of its identity key — the versions are
exactly `start, ..., start + N - 1`, pairwise distinct and all within
`[start, start + N - 1]` — the rows written by the update step are
exactly the candidate rows whose count `N` sized the reservation, and
likewise for the insert step the inserted rows carry versions
`start + rank - 1` over exactly the missing uids. -/
theorem version_assignment_spec (fgs : List FriendGroup) (ms : List Member)
    (friends : List Friend) (start : Int) (db : MigDB) (dn : String)
    (_hN : 1 ≤ toUpdateCount fgs ms friends) :
    ((friendUpdates fgs ms friends start).map (fun u => u.2.2) =
      (List.range (toUpdateCount fgs ms friends)).map
        (fun i : Nat => start + (i : Int))) ∧
    ((friendUpdates fgs ms friends start).map (fun u => u.2.2)).Nodup ∧
    (∀ v ∈ (friendUpdates fgs ms friends start).map (fun u => u.2.2),
      start ≤ v ∧ v ≤ start + ((toUpdateCount fgs ms friends : Int)) - 1) ∧
    ((friendUpdates fgs ms friends start).map (fun u => u.1)).Perm
      ((friends.filter (isUpdateCandidate fgs ms)).map (fun r => r.id)) ∧
    List.Sorted (fun a b : Friend => a.id ≤ b.id)
      (rankedCandidates fgs ms friends) ∧
    toUpdateCount fgs ms friends =
      (friends.filter (isUpdateCandidate fgs ms)).length ∧
    (((insertMissingDefaults db dn start).friendGroups.drop
        db.friendGroups.length).map (fun r => r.version) =
      (List.range (missingUids db dn).length).map
        (fun i : Nat => start + (i : Int))) ∧
    (((insertMissingDefaults db dn start).friendGroups.drop
        db.friendGroups.length).map (fun r => r.uid)).Perm
      (missingUids db dn) := by
  have hperm := List.perm_insertionSort (fun a b : Friend => a.id ≤ b.id)
    (friends.filter (isUpdateCandidate fgs ms))
  have hlen : (rankedCandidates fgs ms friends).length =
      toUpdateCount fgs ms friends := by
    simp only [rankedCandidates, toUpdateCount]
    exact hperm.length_eq
  have hver : (friendUpdates fgs ms friends start).map (fun u => u.2.2) =
      (List.range (toUpdateCount fgs ms friends)).map
        (fun i : Nat => start + (i : Int)) := by
    unfold friendUpdates
    rw [List.map_map]
    have h1 : ((fun (u : Int × Int × Int) => u.2.2) ∘
        (fun p : Nat × Friend => (p.2.id, (newGroupId fgs ms p.2).getD 0,
          start + ((p.1 : Int) + 1) - 1))) =
        (fun p : Nat × Friend => start + ((p.1 : Int) + 1) - 1) := rfl
    have h2 := enum_map_fst_comp (rankedCandidates fgs ms friends)
      (fun i : Nat => start + ((i : Int) + 1) - 1)
    rw [h1, h2, hlen]
    apply List.map_congr_left
    intro i _
    omega
  refine ⟨hver, ?_, ?_, ?_, ?_, rfl, ?_, ?_⟩
  · rw [hver]
    refine List.Nodup.map ?_ (List.nodup_range _)
    intro a b hab
    simp only at hab
    omega
  · intro v hv
    rw [hver] at hv
    simp only [List.mem_map, List.mem_range] at hv
    obtain ⟨i, hi, rfl⟩ := hv
    constructor <;> omega
  · have h3 : (friendUpdates fgs ms friends start).map (fun u => u.1) =
        (rankedCandidates fgs ms friends).map (fun r => r.id) := by
      unfold friendUpdates
      rw [List.map_map]
      have h1 : ((fun (u : Int × Int × Int) => u.1) ∘
          (fun p : Nat × Friend => (p.2.id, (newGroupId fgs ms p.2).getD 0,
            start + ((p.1 : Int) + 1) - 1))) =
          (fun p : Nat × Friend => p.2.id) := rfl
      have h2 := enum_map_snd_comp (rankedCandidates fgs ms friends)
        (fun r : Friend => r.id)
      rw [h1, h2]
    rw [h3]
    exact hperm.map _
  · unfold rankedCandidates
    exact List.sorted_insertionSort _ _
  · have hins : (insertMissingDefaults db dn start).friendGroups.drop
        db.friendGroups.length =
        (List.insertionSort (fun a b : Int => a ≤ b)
          (missingUids db dn)).enum.map (fun p =>
          { id := db.nextFgId + (p.1 : Int), uid := p.2, name := dn,
            is_default := 1, is_deleted := some 0,
            version := start + ((p.1 : Int) + 1) - 1 : FriendGroup }) := by
      simp only [insertMissingDefaults]
      rw [List.drop_left]
    rw [hins, List.map_map]
    have h1 : ((fun (r : FriendGroup) => r.version) ∘
        (fun p : Nat × Int =>
          { id := db.nextFgId + (p.1 : Int), uid := p.2, name := dn,
            is_default := 1, is_deleted := some 0,
            version := start + ((p.1 : Int) + 1) - 1 : FriendGroup })) =
        (fun p : Nat × Int => start + ((p.1 : Int) + 1) - 1) := rfl
    have h2 := enum_map_fst_comp
      (List.insertionSort (fun a b : Int => a ≤ b) (missingUids db dn))
      (fun i : Nat => start + ((i : Int) + 1) - 1)
    rw [h1, h2, List.length_insertionSort]
    apply List.map_congr_left
    intro i _
    omega
  · have hins : (insertMissingDefaults db dn start).friendGroups.drop
        db.friendGroups.length =
        (List.insertionSort (fun a b : Int => a ≤ b)
          (missingUids db dn)).enum.map (fun p =>
          { id := db.nextFgId + (p.1 : Int), uid := p.2, name := dn,
            is_default := 1, is_deleted := some 0,
            version := start + ((p.1 : Int) + 1) - 1 : FriendGroup }) := by
      simp only [insertMissingDefaults]
      rw [List.drop_left]
    rw [hins, List.map_map]
    have h1 : ((fun (r : FriendGroup) => r.uid) ∘
        (fun p : Nat × Int =>
          { id := db.nextFgId + (p.1 : Int), uid := p.2, name := dn,
            is_default := 1, is_deleted := some 0,
            version := start + ((p.1 : Int) + 1) - 1 : FriendGroup })) =
        (fun p : Nat × Int => p.2) := rfl
    have h2 := enum_map_snd_comp
      (List.insertionSort (fun a b : Int => a ≤ b) (missingUids db dn))
      (fun x : Int => x)
    rw [h1, h2, List.map_id']
    exact List.perm_insertionSort _ _

/-- Witness for `version_assignment_spec`: one candidate row with
reserved start 5 receives exactly version 5. -/
theorem version_assignment_spec_witness :
    (friendUpdates [fgW] [] [fW2] 5).map (fun u => u.2.2) = [(5 : Int)] := by
  have h := version_assignment_spec [fgW] [] [fW2] 5 dbW "n" (by decide)
  exact h.1.trans (by decide)
